import Mathlib

/-!
Verification development for the MarisTestPlat automation core.

The definitions below are a shallow embedding of the C++ sources:
  - `TestDataManager` and its reference resolver
    (src/AutomationCore/TestDataManager.cpp),
  - the `TestEngine` step/case orchestrator
    (src/AutomationCore/ReportGenerator.h, second compilation unit),
  - the `PluginManager` registry (src/AutomationCore/PluginManager.cpp),
  - the `TestCaseSerializer` (src/AutomationCore/IAutomationPlugin.h,
    second compilation unit).

Machine integers are modelled as `Int` (no arithmetic overflows in the
modelled code paths), C++ strings as `String` / `List Char`, maps as
association lists looked up by key equality, and exceptions as `Except`
or explicit outcome fields.  Wall-clock time stamps and durations are
not modelled; no claim below depends on them.
-/

/-- Association-list lookup, modelling `std::map::find` /
`std::unordered_map::find` (the embedded states keep keys unique, so
first-match lookup agrees with map semantics). -/
def alookup [DecidableEq κ] (k : κ) : List (κ × α) → Option α
  | [] => none
  | (k', v) :: rest => if k' = k then some v else alookup k rest

/-! ### Data model (TestDataManager.h / ITestDataManager.h) -/

/-- Mirror of `struct TestDataItem`. -/
structure TestDataItem where
  id : Int := 0
  name : String := ""
  type : String := ""
  value : String := ""
  description : String := ""
  project_id : Int := 0
  created_at : String := ""
  last_modified : String := ""
deriving Repr, DecidableEq

/-- Mirror of `struct TestDataSet`. -/
structure TestDataSet where
  id : Int := 0
  name : String := ""
  description : String := ""
  project_id : Int := 0
  items : List TestDataItem := []
  created_at : String := ""
  last_modified : String := ""
deriving Repr, DecidableEq

/-- Mirror of the `TestDataManager` state: `dataSets_` keyed by id and
`dataSetNameMap_` from dataset name to id. -/
structure TestDataManager where
  dataSets_ : List (Int × TestDataSet) := []
  dataSetNameMap_ : List (String × Int) := []
  nextDataSetId_ : Int := 1
  nextDataItemId_ : Int := 1
deriving Repr, DecidableEq

/-- Mirror of `TestDataManager::getDataItemByName`: first item with the
given name (the C++ loop returns the first match, throwing when absent;
the throw is modelled as `none`). -/
def getDataItemByName (items : List TestDataItem) (nm : String) : Option TestDataItem :=
  match items with
  | [] => none
  | it :: rest => if it.name = nm then some it else getDataItemByName rest nm

/-! ### Token scanning (the `std::regex` in TestDataManager.cpp)

The pattern is `\$\{([^.]+)\.([^}]+)\}`.  At a given start position the
two greedy character classes admit no backtracking alternatives, so a
match starting there is forced: after `${` the first group is the
maximal run of non-dot characters, which must be nonempty and followed
by a dot, and the second group is the maximal run of non-brace
characters after that dot, which must be nonempty and followed by `}`.
`matchAt` decides a match at the head of the list and returns
(dataset, item, suffix after the match); its group logic is split into
`matchGroups` and `matchGroupTwo` below. -/
def matchGroupTwo (d tail : List Char) : Option (List Char × List Char × List Char) :=
  if d.isEmpty then none
  else
    match tail.dropWhile (fun c => c != '\x7d') with
    | [] => none
    | _brace :: suf =>
      -- the head of the drop is the first character outside `[^}]`,
      -- i.e. exactly the closing brace the regex then consumes
      if (tail.takeWhile (fun c => c != '\x7d')).isEmpty then none
      else some (d, tail.takeWhile (fun c => c != '\x7d'), suf)

/-- Group part of a match attempt: `([^.]+)\.([^}]+)\}` against the text
after `${`. -/
def matchGroups (rest : List Char) : Option (List Char × List Char × List Char) :=
  match rest.dropWhile (fun c => c != '.') with
  | [] => none
  | _dot :: tail =>
    -- the head of the drop is the first character outside `[^.]`,
    -- i.e. exactly the dot the regex then consumes
    matchGroupTwo (rest.takeWhile (fun c => c != '.')) tail

def matchAt (cs : List Char) : Option (List Char × List Char × List Char) :=
  match cs with
  | c0 :: c1 :: rest =>
    if c0 = '$' ∧ c1 = '\x7b' then matchGroups rest
    else none
  | _ => none

/-- Leftmost-match search (`std::regex_search`): try a match at each
position, left to right; returns (prefix before the match, dataset,
item, suffix after the match). -/
def findTok : List Char → Option (List Char × List Char × List Char × List Char)
  | [] => none
  | c :: cs =>
    match matchAt (c :: cs) with
    | some (d, i, suf) => some ([], d, i, suf)
    | none =>
      match findTok cs with
      | some (pre, d, i, suf) => some (c :: pre, d, i, suf)
      | none => none

/-- The full text of a token match: `${` ++ d ++ `.` ++ i ++ `}`. -/
def tokChars (d i : List Char) : List Char :=
  '$' :: '\x7b' :: (d ++ '.' :: (i ++ ['\x7d']))

/-- Value of `${d.i}` against the store, as read by
`substituteDataReferences`: the dataset name must be in
`dataSetNameMap_`, its id in `dataSets_`, and the item name among the
dataset's items (the C++ code reaches the value through
`getDataItemByName` inside a try block; every throw is modelled as
`none`). -/
def lookupValue (m : TestDataManager) (d i : List Char) : Option String :=
  match alookup (String.mk d) m.dataSetNameMap_ with
  | none => none
  | some dsId =>
    match alookup dsId m.dataSets_ with
    | none => none
    | some ds => (getDataItemByName ds.items (String.mk i)).map (·.value)

/-- Fuelled form of the inner replacement loop of
`substituteDataReferences`: `pos = result.find(fullMatch, pos)`,
`result.replace(pos, fullMatch.length(), value)`,
`pos += value.length()`.  Equivalently: scan left to right, and when
`pat` is a prefix of the remainder emit `val` and skip past `pat`
without rescanning `val`.  One fuel unit is spent per consumed
character position, so `s.length` fuel always suffices. -/
def replaceAllF : Nat → List Char → List Char → List Char → List Char
  | 0, _, _, s => s
  | fuel + 1, pat, val, s =>
    match s with
    | [] => []
    | c :: rest =>
      if !pat.isEmpty && pat.isPrefixOf (c :: rest) then
        val ++ replaceAllF fuel pat val ((c :: rest).drop pat.length)
      else
        c :: replaceAllF fuel pat val rest

/-- Replace every (non-overlapping, left-to-right) occurrence of `pat`
in `s` by `val`, never rescanning inserted text. -/
def replaceAll (pat val s : List Char) : List Char :=
  replaceAllF s.length pat val s

/-- One scan step of `substituteDataReferences`: if the matched
dataset+item resolve, replace all occurrences of the matched token text
in the accumulated result; otherwise leave the result unchanged (the
`TestDataException` is swallowed). -/
def applyMatch (m : TestDataManager) (res : List Char) (d i : List Char) : List Char :=
  match lookupValue m d i with
  | some v => replaceAll (tokChars d i) v.data res
  | none => res

/-- Fuelled form of the outer scan loop of `substituteDataReferences`:
`regex_search` on `temp`, apply the match to `result`, continue with
`temp = match.suffix()`.  Each iteration consumes at least the whole
match (six or more characters) from `temp`, so `temp.length` fuel
always suffices. -/
def substLoopF : Nat → TestDataManager → List Char → List Char → List Char
  | 0, _, res, _ => res
  | fuel + 1, m, res, temp =>
    match findTok temp with
    | none => res
    | some (_pre, d, i, suf) => substLoopF fuel m (applyMatch m res d i) suf

/-- Mirror of `TestDataManager::substituteDataReferences`. -/
def substituteDataReferences (m : TestDataManager) (input : String) : String :=
  ⟨substLoopF input.data.length m input.data input.data⟩

/-- Datasets and items named by the scan of a string, in scan order
(used to state which tokens `substituteDataReferences` looks up). -/
def scanTokensF : Nat → List Char → List (List Char × List Char)
  | 0, _ => []
  | fuel + 1, cs =>
    match findTok cs with
    | none => []
    | some (_pre, d, i, suf) => (d, i) :: scanTokensF fuel suf

/-- All (dataset, item) pairs the scan of `cs` finds. -/
def scanTokens (cs : List Char) : List (List Char × List Char) :=
  scanTokensF cs.length cs

/-! ### resolveDataReference (anchored `std::regex_match`) -/

/-- The three failure shapes of `TestDataManager::resolveDataReference`,
distinguished in the C++ code by which check throws and by the message
text: format mismatch, unknown dataset name, and a failure while
fetching the item of a known dataset (the wrapped rethrow). -/
inductive RefError where
  | invalidFormat (msg : String)
  | datasetNotFound (msg : String)
  | resolveFailed (msg : String)
deriving Repr, DecidableEq

/-- Mirror of `TestDataManager::resolveDataReference`: the reference
must match the token pattern anchored to the whole string
(`regex_match`), then the dataset name and item name are resolved; each
failure throws a distinct `TestDataException`, modelled as the three
`RefError` constructors. -/
def resolveDataReference (m : TestDataManager) (reference : String) : Except RefError String :=
  match matchAt reference.data with
  | some (d, i, []) =>
    let dsName := String.mk d
    let itemName := String.mk i
    match alookup dsName m.dataSetNameMap_ with
    | none => .error (.datasetNotFound ("DataSet with name '" ++ dsName ++ "' not found"))
    | some dsId =>
      match alookup dsId m.dataSets_ with
      | none =>
        .error (.resolveFailed ("Failed to resolve reference " ++ reference ++
          ": DataSet with ID " ++ toString dsId ++ " does not exist"))
      | some ds =>
        match getDataItemByName ds.items itemName with
        | none =>
          .error (.resolveFailed ("Failed to resolve reference " ++ reference ++
            ": DataItem with name '" ++ itemName ++ "' not found in DataSet " ++ toString dsId))
        | some item => .ok item.value
  | _ =>
    .error (.invalidFormat ("Invalid data reference format: " ++ reference ++
      ". Use $\x7bdataset_name.item_name\x7d"))

/-! ### Plugin interface and engine data model (IAutomationPlugin.h / TestEngine.h) -/

/-- Mirror of `struct StepParam` (`timeout` defaults to 3000 ms). -/
structure StepParam where
  action : String := ""
  target : String := ""
  value : String := ""
  params : List (String × String) := []
  timeout : Int := 3000
deriving Repr, DecidableEq

/-- Mirror of `struct StepResult`.  In the C++ struct `ExecutionTimeMs`
has no initializer (indeterminate on default construction); it is given
an arbitrary fixed value here and no claim depends on it. -/
structure StepResult where
  success : Bool := false
  message : String := ""
  error_code : Int := 0
  extra_data : String := ""
  err_info : String := ""
  action : String := ""
  ExecutionTimeMs : Int := 0
deriving Repr, DecidableEq

/-- Mirror of `struct TestStep`. -/
structure TestStep where
  id : Int := 0
  plugin_name : String := ""
  param : StepParam := {}
  is_optional : Bool := false
  stop_on_failure : Bool := true
deriving Repr, DecidableEq

/-- Mirror of `struct TestCase`. -/
structure TestCase where
  id : Int := 0
  name : String := ""
  description : String := ""
  steps : List TestStep := []
  project_id : Int := 0
  setup_script : String := ""
  teardown_script : String := ""
  created_at : String := ""
  last_modified : String := ""
  data_set_ids : List Int := []
deriving Repr, DecidableEq

/-- Mirror of `struct StepExecutionResult`.  The wall-clock fields
(`duration`, `start_time`) are not modelled. -/
structure StepExecutionResult where
  step_id : Int := 0
  result : StepResult := {}
deriving Repr, DecidableEq

/-- Mirror of `struct TestExecutionResult`.  The wall-clock fields
(`total_duration`, `start_time`, `end_time`) are not modelled. -/
structure TestExecutionResult where
  case_id : Int := 0
  case_name : String := ""
  overall_success : Bool := false
  step_results : List StepExecutionResult := []
  error_message : String := ""
deriving Repr, DecidableEq

/-- What a call into plugin code can do besides returning: throw an
exception derived from `std::exception` (carrying a `what()` message)
or throw anything else. -/
inductive ExcKind where
  | stdExc (what : String)
  | unknownExc
deriving Repr, DecidableEq

/-- Model of a loaded `IAutomationPlugin` instance: identity, declared
action vocabulary, the lifecycle hooks' behavior, and the synchronous
step executor (which may throw). -/
structure PluginModel where
  name : String := ""
  version : String := "1.0"
  description : String := ""
  actions : List String := []
  initOk : Bool := true
  uninitEx : Option String := none
  exec : StepParam → Except ExcKind StepResult

/-- Mirror of the `PluginManager` state: `plugins_` maps plugin name to
the loaded instance. -/
structure PluginManagerState where
  plugins_ : List (String × PluginModel) := []

/-- Mirror of `PluginManager::getPlugin`: lookup by name, `nullptr`
modelled as `none`. -/
def getPlugin (st : PluginManagerState) (pluginName : String) : Option PluginModel :=
  alookup pluginName st.plugins_

/-! ### TestEngine (ReportGenerator.h, second compilation unit) -/

/-- Mirror of the `TestEngine` members used by execution: the plugin
manager and the test data manager (the latter is stored by the C++
constructor but never read during execution). -/
structure TestEngine where
  plugin_manager_ : PluginManagerState
  testDataManager_ : TestDataManager

/-- Mirror of `TestEngine::executeSetup`: the source logs and then
simply returns success. -/
def executeSetup (_setup_script : String) : Bool :=
  true

/-- Mirror of `TestEngine::executeTeardown`: the source only logs. -/
def executeTeardown (_teardown_script : String) : Unit :=
  ()

/-- Mirror of `TestEngine::executeTestStep`: look up the plugin (code
-1 when missing), check the declared action vocabulary (code -2 when
unsupported), dispatch, and convert a thrown exception into a failed
`StepResult` (code -3 for `std::exception`, -4 otherwise). -/
def executeTestStep (eng : TestEngine) (step : TestStep) : StepExecutionResult :=
  { step_id := step.id
    result :=
      match getPlugin eng.plugin_manager_ step.plugin_name with
      | none =>
        { success := false
          error_code := -1
          message := "Plugin not found: " ++ step.plugin_name }
      | some plugin =>
        if step.param.action ∈ plugin.actions then
          match plugin.exec step.param with
          | .ok r => r
          | .error (.stdExc what) =>
            { success := false
              error_code := -3
              message := "Exception occurred: " ++ what }
          | .error .unknownExc =>
            { success := false
              error_code := -4
              message := "Unknown exception occurred" }
        else
          { success := false
            error_code := -2
            message := "Plugin " ++ step.plugin_name ++ " does not support action: " ++
              step.param.action } }

/-- The step loop of `TestEngine::executeTestCase`: execute in declared
order, append each result, and break after a failed step that has
`stop_on_failure` set. -/
def runSteps (eng : TestEngine) : List TestStep → List StepExecutionResult
  | [] => []
  | step :: rest =>
    let r := executeTestStep eng step
    if !r.result.success && step.stop_on_failure then [r]
    else r :: runSteps eng rest

/-- The overall-success fold of `TestEngine::executeTestCase`: start
from `true` and flip to `false` when some recorded step result failed
and the step at the same index is not optional. -/
def overallOf (steps : List TestStep) (rs : List StepExecutionResult) : Bool :=
  (rs.zip steps).all fun p => p.1.result.success || p.2.is_optional

/-- Mirror of `TestEngine::executeTestCase`.  The catch-all handlers of
the C++ function are unreachable in the model (every modelled callee is
total), and `executeSetup` always succeeds, making the short-circuit
branch dead code, exactly as in the source. -/
def executeTestCase (eng : TestEngine) (testCase : TestCase) : TestExecutionResult :=
  if testCase.setup_script ≠ "" ∧ executeSetup testCase.setup_script = false then
    { case_id := testCase.id
      case_name := testCase.name
      overall_success := false
      step_results := []
      error_message := "Setup script failed" }
  else
    let rs := runSteps eng testCase.steps
    { case_id := testCase.id
      case_name := testCase.name
      overall_success := overallOf testCase.steps rs
      step_results := rs
      error_message := "" }

/-! ### PluginManager registration and teardown (PluginManager.cpp) -/

/-- Model of one external module handed to `loadPlugin`: whether the
file exists, whether the two entry points resolve, whether
`createPlugin` returns an instance, and the instance it constructs. -/
structure ModuleSpec where
  fileExists : Bool := true
  hasCreateFunc : Bool := true
  hasDestroyFunc : Bool := true
  createOk : Bool := true
  plugin : PluginModel

/-- Outcome of one `loadPlugin` call: the registry afterwards, the
returned flag, and whether the just-constructed instance was destroyed
(`destroyFunc`) and the module released (`FreeLibrary`) during the
call. -/
structure LoadOutcome where
  state : PluginManagerState
  ok : Bool
  destroyedNewInstance : Bool
  freedModule : Bool

/-- Mirror of `PluginManager::validatePlugin`: an empty name is a hard
failure; a missing version is only a warning. -/
def validatePlugin (p : PluginModel) : Bool :=
  !(p.name == "")

/-- Mirror of `PluginManager::loadPlugin`: file check, entry-point
check, construction, validation, duplicate-name check, then
`initialize`; every rejection after construction destroys the instance
and frees the module, and only full success stores the handle. -/
def loadPlugin (st : PluginManagerState) (m : ModuleSpec) : LoadOutcome :=
  if !m.fileExists then
    { state := st, ok := false, destroyedNewInstance := false, freedModule := false }
  else if !(m.hasCreateFunc && m.hasDestroyFunc) then
    { state := st, ok := false, destroyedNewInstance := false, freedModule := true }
  else if !m.createOk then
    { state := st, ok := false, destroyedNewInstance := false, freedModule := true }
  else if !(validatePlugin m.plugin) then
    { state := st, ok := false, destroyedNewInstance := true, freedModule := true }
  else if (alookup m.plugin.name st.plugins_).isSome then
    { state := st, ok := false, destroyedNewInstance := true, freedModule := true }
  else if !m.plugin.initOk then
    { state := st, ok := false, destroyedNewInstance := true, freedModule := true }
  else
    { state := ⟨st.plugins_ ++ [(m.plugin.name, m.plugin)]⟩, ok := true,
      destroyedNewInstance := false, freedModule := false }

/-- Trace of `PluginManager::unloadAllPlugins` over the registry
entries in order: the names whose `uninitialize` hook was invoked, the
names whose instance was destroyed and module freed, and the message of
an escaped exception, if any.  The C++ loop body is not wrapped in a
try block, so a throwing hook ends the loop at once: the thrower's own
module and all remaining plugins are neither destroyed nor freed. -/
def unloadAllPluginsAux : List (String × PluginModel) → List String × List String × Option String
  | [] => ([], [], none)
  | (n, p) :: rest =>
    match p.uninitEx with
    | some e => ([n], [], some e)
    | none =>
      let r := unloadAllPluginsAux rest
      (n :: r.1, n :: r.2.1, r.2.2)

/-- Outcome of `unloadAllPlugins`: hook invocations, released plugins,
escaped exception, and the registry contents afterwards
(`plugins_.clear()` runs only when no hook threw). -/
structure UnloadResult where
  uninitCalled : List String
  released : List String
  raised : Option String
  finalPlugins : List (String × PluginModel)

/-- Mirror of `PluginManager::unloadAllPlugins`. -/
def unloadAllPlugins (st : PluginManagerState) : UnloadResult :=
  let r := unloadAllPluginsAux st.plugins_
  { uninitCalled := r.1
    released := r.2.1
    raised := r.2.2
    finalPlugins := if r.2.2.isSome then st.plugins_ else [] }

/-! ### TestCaseSerializer (IAutomationPlugin.h, second compilation unit) -/

/-- Model of the `nlohmann::json` values the serializer builds and
reads. -/
inductive Json where
  | num (n : Int)
  | str (s : String)
  | bool (b : Bool)
  | arr (xs : List Json)
  | obj (fields : List (String × Json))

/-- Field access `j.contains(k)` / `j[k]` on an object. -/
def Json.getField (j : Json) (k : String) : Option Json :=
  match j with
  | .obj fields => alookup k fields
  | _ => none

/-- Read an integer field: absent means keep the struct default, a
non-number value means the conversion throws (`none`). -/
def Json.getIntField (j : Json) (k : String) (dflt : Int) : Option Int :=
  match j.getField k with
  | none => some dflt
  | some (.num n) => some n
  | some _ => none

/-- Read a string field (same conventions as `Json.getIntField`). -/
def Json.getStrField (j : Json) (k : String) (dflt : String) : Option String :=
  match j.getField k with
  | none => some dflt
  | some (.str s) => some s
  | some _ => none

/-- Read a boolean field (same conventions as `Json.getIntField`). -/
def Json.getBoolField (j : Json) (k : String) (dflt : Bool) : Option Bool :=
  match j.getField k with
  | none => some dflt
  | some (.bool b) => some b
  | some _ => none

/-- The per-step object built by `TestCaseSerializer::serializeTestCase`:
only `id`, `plugin_name`, `action`, `target`, `value` and
`stop_on_failure` are written. -/
def serializeStep (step : TestStep) : Json :=
  .obj [("id", .num step.id),
        ("plugin_name", .str step.plugin_name),
        ("action", .str step.param.action),
        ("target", .str step.param.target),
        ("value", .str step.param.value),
        ("stop_on_failure", .bool step.stop_on_failure)]

/-- Mirror of `TestCaseSerializer::serializeTestCase` (the
`created_at` / `last_modified` block is commented out in the source). -/
def serializeTestCase (testCase : TestCase) : Json :=
  .obj [("id", .num testCase.id),
        ("name", .str testCase.name),
        ("description", .str testCase.description),
        ("project_id", .num testCase.project_id),
        ("steps", .arr (testCase.steps.map serializeStep))]

/-- The per-step part of `TestCaseSerializer::deserializeTestCase`: a
default-constructed `TestStep` with only the six serialized fields
conditionally filled in. -/
def deserializeStep (sj : Json) : Option TestStep := do
  let id ← sj.getIntField "id" 0
  let plugin_name ← sj.getStrField "plugin_name" ""
  let action ← sj.getStrField "action" ""
  let target ← sj.getStrField "target" ""
  let value ← sj.getStrField "value" ""
  let sof ← sj.getBoolField "stop_on_failure" true
  some { id := id, plugin_name := plugin_name,
         param := { action := action, target := target, value := value },
         is_optional := false, stop_on_failure := sof }

/-- Mirror of `TestCaseSerializer::deserializeTestCase`: a
default-constructed `TestCase`, fields conditionally filled in; a
`steps` entry that is not an array is skipped, and a field of the wrong
json type makes the conversion throw (`none`). -/
def deserializeTestCase (j : Json) : Option TestCase := do
  let id ← j.getIntField "id" 0
  let name ← j.getStrField "name" ""
  let description ← j.getStrField "description" ""
  let project_id ← j.getIntField "project_id" 0
  let steps ←
    match j.getField "steps" with
    | some (.arr xs) => xs.mapM deserializeStep
    | _ => some []
  some { id := id, name := name, description := description,
         project_id := project_id, steps := steps }

/-! ### Properties of the token scanner -/

/-- The head of a nonempty `dropWhile` residue fails the predicate. -/
theorem dropWhile_head_false {α} {p : α → Bool} :
    ∀ {l : List α} {x : α} {xs : List α}, l.dropWhile p = x :: xs → p x = false := by
  intro l
  induction l with
  | nil => intro x xs h; simp [List.dropWhile] at h
  | cons a l ih =>
    intro x xs h
    rw [List.dropWhile_cons] at h
    by_cases hpa : p a = true
    · rw [if_pos hpa] at h
      exact ih h
    · rw [if_neg hpa] at h
      cases h
      simpa using hpa

/-- Splitting a list at the first predicate failure, build direction. -/
theorem takeWhile_dropWhile_append {α} {p : α → Bool} {d : List α} {c : α} {r : List α}
    (hd : ∀ a ∈ d, p a = true) (hc : p c = false) :
    (d ++ c :: r).takeWhile p = d ∧ (d ++ c :: r).dropWhile p = c :: r := by
  induction d with
  | nil => simp [List.takeWhile_cons, List.dropWhile_cons, hc]
  | cons a d ih =>
    have ha : p a = true := hd a (by simp)
    have ih' := ih fun x hx => hd x (by simp [hx])
    simp [List.takeWhile_cons, List.dropWhile_cons, ha, ih'.1, ih'.2]

/-- The matched text plus the residue, written as one cons chain. -/
theorem tokChars_append (d i suf : List Char) :
    tokChars d i ++ suf = '$' :: '\x7b' :: (d ++ '.' :: (i ++ '\x7d' :: suf)) := by
  simp [tokChars]


/-- Soundness of `matchGroupTwo`. -/
theorem matchGroupTwo_eq_some {d tail d' i suf : List Char}
    (h : matchGroupTwo d tail = some (d', i, suf)) :
    d' = d ∧ d ≠ [] ∧ tail = i ++ '\x7d' :: suf ∧ i ≠ [] ∧ '\x7d' ∉ i := by
  cases hde : d.isEmpty with
  | true => simp [matchGroupTwo, hde] at h
  | false =>
    cases hdw : tail.dropWhile (fun c => c != '\x7d') with
    | nil => simp [matchGroupTwo, hde, hdw] at h
    | cons cbr suf0 =>
      cases hie : (tail.takeWhile (fun c => c != '\x7d')).isEmpty with
      | true => simp [matchGroupTwo, hde, hdw, hie] at h
      | false =>
        simp only [matchGroupTwo, hde, hdw, hie, Bool.false_eq_true, if_false,
          Option.some.injEq, Prod.mk.injEq] at h
        obtain ⟨hd', hi, hsuf⟩ := h
        have hcbr : cbr = '\x7d' := by
          have := dropWhile_head_false hdw
          simpa using this
        refine ⟨hd'.symm, by simpa using hde, ?_, ?_, ?_⟩
        · conv_lhs => rw [← List.takeWhile_append_dropWhile
            (p := fun c => c != '\x7d') (l := tail)]
          rw [hdw, hcbr, hi, hsuf]
        · rw [← hi]
          simpa using hie
        · rw [← hi]
          intro hmem
          have := List.mem_takeWhile_imp hmem
          simp at this

/-- Soundness of `matchGroups`. -/
theorem matchGroups_eq_some {rest d i suf : List Char}
    (h : matchGroups rest = some (d, i, suf)) :
    rest = d ++ '.' :: (i ++ '\x7d' :: suf) ∧ d ≠ [] ∧ '.' ∉ d ∧ i ≠ [] ∧ '\x7d' ∉ i := by
  unfold matchGroups at h
  cases hdw : rest.dropWhile (fun c => c != '.') with
  | nil => simp [hdw] at h
  | cons cdot tail =>
    simp only [hdw] at h
    obtain ⟨hd', hdne, htail, hine, hinot⟩ := matchGroupTwo_eq_some h
    have hcdot : cdot = '.' := by
      have := dropWhile_head_false hdw
      simpa using this
    have hdne' : d ≠ [] := by rw [hd']; exact hdne
    refine ⟨?_, hdne', ?_, hine, hinot⟩
    · conv_lhs => rw [← List.takeWhile_append_dropWhile
        (p := fun c => c != '.') (l := rest)]
      rw [hdw, hcdot, ← hd', htail]
    · rw [hd']
      intro hmem
      have := List.mem_takeWhile_imp hmem
      simp at this

/-- Soundness of `matchAt`: a successful match decomposes its input. -/
theorem matchAt_eq_some {cs d i suf : List Char} (h : matchAt cs = some (d, i, suf)) :
    cs = tokChars d i ++ suf ∧ d ≠ [] ∧ '.' ∉ d ∧ i ≠ [] ∧ '\x7d' ∉ i := by
  match cs with
  | [] => simp [matchAt] at h
  | [c0] => simp [matchAt] at h
  | c0 :: c1 :: rest =>
    simp only [matchAt] at h
    by_cases hc : c0 = '$' ∧ c1 = '\x7b'
    · rw [if_pos hc] at h
      obtain ⟨h0, h1⟩ := hc
      subst h0; subst h1
      obtain ⟨hrest, h2, h3, h4, h5⟩ := matchGroups_eq_some h
      exact ⟨by rw [tokChars_append, hrest], h2, h3, h4, h5⟩
    · rw [if_neg hc] at h
      simp at h

/-- Completeness of `matchGroupTwo`. -/
theorem matchGroupTwo_complete {d i : List Char} (suf : List Char)
    (hd : d ≠ []) (hi : i ≠ []) (hi2 : '\x7d' ∉ i) :
    matchGroupTwo d (i ++ '\x7d' :: suf) = some (d, i, suf) := by
  have hmem : ∀ a ∈ i, (a != '\x7d') = true := by
    intro a ha
    have : a ≠ '\x7d' := fun he => hi2 (he ▸ ha)
    simpa using this
  have hsplit := takeWhile_dropWhile_append (p := fun c => c != '\x7d')
    (d := i) (c := '\x7d') (r := suf) hmem (by simp)
  have hde : d.isEmpty = false := by simpa using hd
  have hie : i.isEmpty = false := by simpa using hi
  simp [matchGroupTwo, hde, hsplit.1, hsplit.2, hie]

/-- Completeness of `matchGroups`. -/
theorem matchGroups_complete {d i : List Char} (suf : List Char)
    (hd : d ≠ []) (hd2 : '.' ∉ d) (hi : i ≠ []) (hi2 : '\x7d' ∉ i) :
    matchGroups (d ++ '.' :: (i ++ '\x7d' :: suf)) = some (d, i, suf) := by
  have hmem : ∀ a ∈ d, (a != '.') = true := by
    intro a ha
    have : a ≠ '.' := fun he => hd2 (he ▸ ha)
    simpa using this
  have hsplit := takeWhile_dropWhile_append (p := fun c => c != '.')
    (d := d) (c := '.') (r := i ++ '\x7d' :: suf) hmem (by simp)
  simp only [matchGroups, hsplit.1, hsplit.2]
  exact matchGroupTwo_complete suf hd hi hi2

/-- Completeness of `matchAt`: a well-formed token at the head is
matched, greedily and exactly. -/
theorem matchAt_complete {d i : List Char} (suf : List Char)
    (hd : d ≠ []) (hd2 : '.' ∉ d) (hi : i ≠ []) (hi2 : '\x7d' ∉ i) :
    matchAt (tokChars d i ++ suf) = some (d, i, suf) := by
  rw [tokChars_append]
  show (if ('$' : Char) = '$' ∧ ('\x7b' : Char) = '\x7b' then
    matchGroups (d ++ '.' :: (i ++ '\x7d' :: suf)) else none) = some (d, i, suf)
  rw [if_pos ⟨rfl, rfl⟩]
  exact matchGroups_complete suf hd hd2 hi hi2

/-- Soundness of `findTok`: a found token decomposes the input around
the matched text. -/
theorem findTok_decomp :
    ∀ {cs pre d i suf : List Char}, findTok cs = some (pre, d, i, suf) →
      cs = pre ++ tokChars d i ++ suf ∧ d ≠ [] ∧ '.' ∉ d ∧ i ≠ [] ∧ '\x7d' ∉ i := by
  intro cs
  induction cs with
  | nil => intro pre d i suf h; simp [findTok] at h
  | cons c cs ih =>
    intro pre d i suf h
    rw [findTok] at h
    cases hm : matchAt (c :: cs) with
    | some v =>
      obtain ⟨d0, i0, suf0⟩ := v
      rw [hm] at h
      cases h
      obtain ⟨hdec, h2, h3, h4, h5⟩ := matchAt_eq_some hm
      exact ⟨by simpa using hdec, h2, h3, h4, h5⟩
    | none =>
      rw [hm] at h
      cases hf : findTok cs with
      | none => rw [hf] at h; simp at h
      | some v =>
        obtain ⟨pre0, d0, i0, suf0⟩ := v
        rw [hf] at h
        cases h
        obtain ⟨hdec, h2, h3, h4, h5⟩ := ih hf
        exact ⟨by simp [hdec], h2, h3, h4, h5⟩

/-- The residue after a found token is strictly shorter than the
input. -/
theorem findTok_suffix_lt {cs pre d i suf : List Char}
    (h : findTok cs = some (pre, d, i, suf)) : suf.length < cs.length := by
  obtain ⟨hdec, hd, -, hi, -⟩ := findTok_decomp h
  subst hdec
  simp [tokChars]
  omega

/-- A well-formed token at the very start of the input is the found
token (leftmost search succeeds at position zero). -/
theorem findTok_at_start {d i : List Char} (suf : List Char)
    (hd : d ≠ []) (hd2 : '.' ∉ d) (hi : i ≠ []) (hi2 : '\x7d' ∉ i) :
    findTok (tokChars d i ++ suf) = some ([], d, i, suf) := by
  have hm := matchAt_complete suf hd hd2 hi hi2
  rw [tokChars_append] at hm ⊢
  rw [findTok, hm]

/-- `replaceAllF` ignores the exact fuel amount once it covers the
input length. -/
theorem replaceAllF_congr :
    ∀ (f1 f2 : Nat) (pat val s : List Char), s.length ≤ f1 → s.length ≤ f2 →
      replaceAllF f1 pat val s = replaceAllF f2 pat val s := by
  intro f1
  induction f1 with
  | zero =>
    intro f2 pat val s h1 _h2
    have hs : s = [] := List.eq_nil_of_length_eq_zero (Nat.le_zero.mp h1)
    subst hs
    cases f2 <;> simp [replaceAllF]
  | succ f1 ih =>
    intro f2 pat val s h1 h2
    cases f2 with
    | zero =>
      have hs : s = [] := List.eq_nil_of_length_eq_zero (Nat.le_zero.mp h2)
      subst hs
      simp [replaceAllF]
    | succ f2 =>
      cases s with
      | nil => simp [replaceAllF]
      | cons c rest =>
        simp only [replaceAllF]
        by_cases hcond : (!pat.isEmpty && pat.isPrefixOf (c :: rest)) = true
        · rw [if_pos hcond, if_pos hcond]
          have hpat : 1 ≤ pat.length := by
            cases pat with
            | nil => simp at hcond
            | cons p ps => simp
          have hlen : ((c :: rest).drop pat.length).length ≤ f1 ∧
              ((c :: rest).drop pat.length).length ≤ f2 := by
            simp only [List.length_drop, List.length_cons]
            simp only [List.length_cons] at h1 h2
            omega
          rw [ih f2 pat val _ hlen.1 hlen.2]
        · rw [if_neg hcond, if_neg hcond]
          have hlen : rest.length ≤ f1 ∧ rest.length ≤ f2 := by
            simp only [List.length_cons] at h1 h2
            omega
          rw [ih f2 pat val rest hlen.1 hlen.2]

/-- `substLoopF` ignores the exact fuel amount once it covers the
scanned text's length. -/
theorem substLoopF_congr :
    ∀ (f1 f2 : Nat) (m : TestDataManager) (res temp : List Char),
      temp.length ≤ f1 → temp.length ≤ f2 →
      substLoopF f1 m res temp = substLoopF f2 m res temp := by
  intro f1
  induction f1 with
  | zero =>
    intro f2 m res temp h1 _h2
    have ht : temp = [] := List.eq_nil_of_length_eq_zero (Nat.le_zero.mp h1)
    subst ht
    cases f2 <;> simp [substLoopF, findTok]
  | succ f1 ih =>
    intro f2 m res temp h1 h2
    cases f2 with
    | zero =>
      have ht : temp = [] := List.eq_nil_of_length_eq_zero (Nat.le_zero.mp h2)
      subst ht
      simp [substLoopF, findTok]
    | succ f2 =>
      cases hm : findTok temp with
      | none => simp [substLoopF, hm]
      | some v =>
        obtain ⟨pre, d, i, suf⟩ := v
        have hlt := findTok_suffix_lt hm
        simp only [substLoopF, hm]
        exact ih f2 m (applyMatch m res d i) suf (by omega) (by omega)

/-- `scanTokensF` ignores the exact fuel amount once it covers the
scanned text's length. -/
theorem scanTokensF_congr :
    ∀ (f1 f2 : Nat) (cs : List Char), cs.length ≤ f1 → cs.length ≤ f2 →
      scanTokensF f1 cs = scanTokensF f2 cs := by
  intro f1
  induction f1 with
  | zero =>
    intro f2 cs h1 _h2
    have hc : cs = [] := List.eq_nil_of_length_eq_zero (Nat.le_zero.mp h1)
    subst hc
    cases f2 <;> simp [scanTokensF, findTok]
  | succ f1 ih =>
    intro f2 cs h1 h2
    cases f2 with
    | zero =>
      have hc : cs = [] := List.eq_nil_of_length_eq_zero (Nat.le_zero.mp h2)
      subst hc
      simp [scanTokensF, findTok]
    | succ f2 =>
      cases hm : findTok cs with
      | none => simp [scanTokensF, hm]
      | some v =>
        obtain ⟨pre, d, i, suf⟩ := v
        have hlt := findTok_suffix_lt hm
        simp only [scanTokensF, hm]
        rw [ih f2 suf (by omega) (by omega)]

/-- Unfolding `scanTokens` along one found token. -/
theorem scanTokens_cons {temp pre d i suf : List Char}
    (h : findTok temp = some (pre, d, i, suf)) :
    scanTokens temp = (d, i) :: scanTokens suf := by
  have hlt := findTok_suffix_lt h
  unfold scanTokens
  cases hn : temp.length with
  | zero =>
    have : temp = [] := List.eq_nil_of_length_eq_zero hn
    subst this
    simp [findTok] at h
  | succ n =>
    simp only [scanTokensF, h]
    rw [scanTokensF_congr n suf.length suf (by omega) (by omega)]

/-- If no token found by the scan resolves, the scan loop returns the
accumulated result unchanged. -/
theorem substLoopF_id (m : TestDataManager) :
    ∀ (fuel : Nat) (temp res : List Char), temp.length ≤ fuel →
      (∀ p ∈ scanTokens temp, lookupValue m p.1 p.2 = none) →
      substLoopF fuel m res temp = res := by
  intro fuel
  induction fuel with
  | zero => intro temp res _ _; simp [substLoopF]
  | succ fuel ih =>
    intro temp res hlen hall
    cases hm : findTok temp with
    | none => simp [substLoopF, hm]
    | some v =>
      obtain ⟨pre, d, i, suf⟩ := v
      have hcons := scanTokens_cons hm
      have h1 : lookupValue m d i = none := by
        have := hall (d, i) (by rw [hcons]; exact List.mem_cons_self _ _)
        exact this
      have happ : applyMatch m res d i = res := by simp [applyMatch, h1]
      simp only [substLoopF, hm, happ]
      have hlt := findTok_suffix_lt hm
      exact ih suf res (by omega) fun p hp => hall p (by rw [hcons]; exact List.mem_cons_of_mem _ hp)

/-- Replacing in an empty string is a no-op at any fuel. -/
theorem replaceAllF_nil (fuel : Nat) (pat val : List Char) :
    replaceAllF fuel pat val [] = [] := by
  cases fuel <;> simp [replaceAllF]

/-- Replacing the pattern inside the pattern itself yields the value:
the single occurrence is found at position zero and the scan then skips
past the inserted value. -/
theorem replaceAll_self {pat : List Char} (val : List Char) (hp : pat ≠ []) :
    replaceAll pat val pat = val := by
  unfold replaceAll
  cases pat with
  | nil => exact absurd rfl hp
  | cons c rest =>
    have hcond : (!(c :: rest).isEmpty && (c :: rest).isPrefixOf (c :: rest)) = true := by
      simp [List.isPrefixOf_iff_prefix]
    show replaceAllF (rest.length + 1) (c :: rest) val (c :: rest) = val
    simp only [replaceAllF, hcond, if_true]
    rw [List.drop_length, replaceAllF_nil, List.append_nil]

/-- The scan loop on an empty remainder returns the result. -/
theorem substLoopF_nil (fuel : Nat) (m : TestDataManager) (res : List Char) :
    substLoopF fuel m res [] = res := by
  cases fuel <;> simp [substLoopF, findTok]

/-- `String.append` concatenates the character data. -/
theorem data_append (s t : String) : (s ++ t).data = s.data ++ t.data :=
  rfl

/-- Character data of the `${d.i}` string literal built from two string
pieces. -/
theorem tokString_data (d i : String) :
    ("$\x7b" ++ d ++ "." ++ i ++ "\x7d").data = tokChars d.data i.data := by
  have h1 : ("$\x7b" : String).data = ['$', '\x7b'] := rfl
  have h2 : ("." : String).data = ['.'] := rfl
  have h3 : ("\x7d" : String).data = ['\x7d'] := rfl
  simp [data_append, h1, h2, h3, tokChars]

/-- A single well-formed resolvable token is replaced by the raw stored
value. -/
theorem subst_token (m : TestDataManager) (d i : List Char) (v : String)
    (hd : d ≠ []) (hd2 : '.' ∉ d) (hi : i ≠ []) (hi2 : '\x7d' ∉ i)
    (hv : lookupValue m d i = some v) :
    substituteDataReferences m ⟨tokChars d i⟩ = v := by
  show String.mk (substLoopF (tokChars d i).length m (tokChars d i) (tokChars d i)) = v
  have hfind : findTok (tokChars d i) = some ([], d, i, []) := by
    have := findTok_at_start [] hd hd2 hi hi2
    simpa using this
  obtain ⟨n, hn⟩ : ∃ n, (tokChars d i).length = n + 1 :=
    ⟨(tokChars d i).length - 1, by simp [tokChars]⟩
  rw [hn]
  simp only [substLoopF, hfind]
  have happ : applyMatch m (tokChars d i) d i = v.data := by
    simp only [applyMatch, hv]
    exact replaceAll_self v.data (by simp [tokChars])
  rw [happ, substLoopF_nil]

/-- When no scanned token resolves, substitution is the identity. -/
theorem substituteDataReferences_id (m : TestDataManager) (s : String)
    (h : ∀ p ∈ scanTokens s.data, lookupValue m p.1 p.2 = none) :
    substituteDataReferences m s = s := by
  show String.mk (substLoopF s.data.length m s.data s.data) = s
  rw [substLoopF_id m s.data.length s.data s.data le_rfl h]


/-! ### Properties of the orchestrator -/

/-- The overall-success fold is `false` exactly when some recorded step
result failed at an index whose step is not optional. -/
theorem overallOf_eq_false_iff :
    ∀ (rs : List StepExecutionResult) (steps : List TestStep),
      overallOf steps rs = false ↔
        ∃ j, ∃ h1 : j < rs.length, ∃ h2 : j < steps.length,
          (rs.get ⟨j, h1⟩).result.success = false ∧
          (steps.get ⟨j, h2⟩).is_optional = false := by
  intro rs
  induction rs with
  | nil =>
    intro steps
    simp [overallOf]
  | cons r rs ih =>
    intro steps
    cases steps with
    | nil => simp [overallOf]
    | cons s ss =>
      constructor
      · intro h
        simp only [overallOf, List.zip_cons_cons, List.all_cons,
          Bool.and_eq_false_iff] at h
        cases h with
        | inl hhead =>
          obtain ⟨hs0, ho0⟩ := Bool.or_eq_false_iff.mp hhead
          exact ⟨0, by simp, by simp, hs0, ho0⟩
        | inr htail =>
          obtain ⟨j, h1, h2, hs, ho⟩ := (ih ss).mp htail
          exact ⟨j + 1, by simpa using h1, by simpa using h2, by simpa using hs,
            by simpa using ho⟩
      · rintro ⟨j, h1, h2, hs, ho⟩
        simp only [overallOf, List.zip_cons_cons, List.all_cons,
          Bool.and_eq_false_iff]
        cases j with
        | zero =>
          left
          simp only [List.get] at hs ho
          simp [hs, ho]
        | succ j =>
          right
          exact (ih ss).mpr ⟨j, by simpa using h1, by simpa using h2,
            by simpa using hs, by simpa using ho⟩

/-- The step loop never records more results than there are steps. -/
theorem runSteps_length_le (eng : TestEngine) :
    ∀ steps : List TestStep, (runSteps eng steps).length ≤ steps.length := by
  intro steps
  induction steps with
  | nil => simp [runSteps]
  | cons s ss ih =>
    cases hc : (!(executeTestStep eng s).result.success && s.stop_on_failure) with
    | true => simp [runSteps, hc]
    | false =>
      simp only [runSteps]
      simp [hc]
      omega

/-- `executeTestCase`, with the dead setup-failure branch removed:
`executeSetup` always succeeds, so the result is always assembled from
the step loop. -/
theorem executeTestCase_eq (eng : TestEngine) (tc : TestCase) :
    executeTestCase eng tc =
      { case_id := tc.id
        case_name := tc.name
        overall_success := overallOf tc.steps (runSteps eng tc.steps)
        step_results := runSteps eng tc.steps
        error_message := "" } := by
  unfold executeTestCase
  rw [if_neg]
  intro h
  exact absurd h.2 (by simp [executeSetup])

/-- If no earlier step triggers the stop policy and the j-th step's
result fails with `stop_on_failure` set, the loop records exactly the
first j+1 results and the j-th recorded result is the j-th step's. -/
theorem runSteps_stop (eng : TestEngine) :
    ∀ (steps : List TestStep) (j : Nat) (hj : j < steps.length),
      (∀ k (hk : k < j),
        ¬((executeTestStep eng (steps.get ⟨k, hk.trans hj⟩)).result.success = false ∧
          (steps.get ⟨k, hk.trans hj⟩).stop_on_failure = true)) →
      (executeTestStep eng (steps.get ⟨j, hj⟩)).result.success = false →
      (steps.get ⟨j, hj⟩).stop_on_failure = true →
      (runSteps eng steps).length = j + 1 ∧
      (runSteps eng steps).get? j = some (executeTestStep eng (steps.get ⟨j, hj⟩)) := by
  intro steps
  induction steps with
  | nil => intro j hj; exact absurd hj (by simp)
  | cons s ss ih =>
    intro j hj hprev hfail hstop
    cases j with
    | zero =>
      simp only [List.get] at hfail hstop
      have hc : (!(executeTestStep eng s).result.success && s.stop_on_failure) = true := by
        simp [hfail, hstop]
      simp [runSteps, hc, List.get]
    | succ j =>
      have h0 := hprev 0 (Nat.succ_pos j)
      simp only [List.get] at h0
      have hc : (!(executeTestStep eng s).result.success && s.stop_on_failure) = false := by
        cases hcc : (!(executeTestStep eng s).result.success && s.stop_on_failure) with
        | false => rfl
        | true =>
          exfalso
          apply h0
          constructor
          · have := (Bool.and_eq_true_iff.mp hcc).1
            simpa using this
          · exact (Bool.and_eq_true_iff.mp hcc).2
      have hj' : j < ss.length := by simpa using hj
      have hprev' : ∀ k (hk : k < j),
          ¬((executeTestStep eng (ss.get ⟨k, hk.trans hj'⟩)).result.success = false ∧
            (ss.get ⟨k, hk.trans hj'⟩).stop_on_failure = true) := by
        intro k hk
        have := hprev (k + 1) (by omega)
        simpa [List.get] using this
      have hfail' : (executeTestStep eng (ss.get ⟨j, hj'⟩)).result.success = false := by
        simpa [List.get] using hfail
      have hstop' : (ss.get ⟨j, hj'⟩).stop_on_failure = true := by
        simpa [List.get] using hstop
      obtain ⟨hlen, hget⟩ := ih j hj' hprev' hfail' hstop'
      simp only [runSteps]
      simp only [hc, Bool.false_eq_true, if_false]
      refine ⟨by simpa using hlen, ?_⟩
      simpa [List.get?] using hget

/-! ### Properties of the serializer -/

/-- What one serialize/deserialize round trip does to a step: the six
serialized fields survive; `is_optional`, `params` and `timeout` come
back as the struct defaults. -/
def resetStep (s : TestStep) : TestStep :=
  { id := s.id, plugin_name := s.plugin_name,
    param := { action := s.param.action, target := s.param.target,
               value := s.param.value, params := [], timeout := 3000 },
    is_optional := false, stop_on_failure := s.stop_on_failure }

/-- Per-step round trip. -/
theorem deserializeStep_serializeStep (s : TestStep) :
    deserializeStep (serializeStep s) = some (resetStep s) := rfl

/-- Step-list round trip. -/
theorem mapM_roundtrip : ∀ steps : List TestStep,
    (steps.map serializeStep).mapM deserializeStep = some (steps.map resetStep) := by
  intro steps
  induction steps with
  | nil => rfl
  | cons s ss ih =>
    simp only [List.map_cons, List.mapM_cons, deserializeStep_serializeStep, ih]
    rfl

/-! ### Concrete fixtures used by the claim theorems -/

/-- Item whose stored value itself contains a data-reference token. -/
def itemX : TestDataItem := { id := 1, name := "x", type := "string", value := "$\x7bA.y\x7d" }

def itemY : TestDataItem := { id := 2, name := "y", type := "string", value := "2" }

def itemV5 : TestDataItem := { id := 3, name := "v5", type := "string", value := "5" }

def dsA : TestDataSet := { id := 1, name := "A", items := [itemX, itemY, itemV5] }

/-- A store with one dataset `A` holding `x = "${A.y}"`, `y = "2"`,
`v5 = "5"`. -/
def storeA : TestDataManager :=
  { dataSets_ := [(1, dsA)], dataSetNameMap_ := [("A", 1)] }

/-- A plugin that echoes the step's `target` back in `extra_data`. -/
def echoPlugin : PluginModel :=
  { name := "echo", actions := ["click", "input"],
    exec := fun p => .ok { success := true, extra_data := p.target, action := p.action } }

/-- A plugin whose only action reports failure (error code 7). -/
def failPlugin : PluginModel :=
  { name := "fail", actions := ["boom"],
    exec := fun _ => .ok { success := false, message := "bad", error_code := 7 } }

/-- A plugin whose executor throws a `std::exception`. -/
def throwPlugin : PluginModel :=
  { name := "throw", actions := ["kaboom"],
    exec := fun _ => .error (.stdExc "oops") }

def registryT : PluginManagerState :=
  { plugins_ := [("echo", echoPlugin), ("fail", failPlugin), ("throw", throwPlugin)] }

def engineT : TestEngine :=
  { plugin_manager_ := registryT, testDataManager_ := storeA }

/-- A step whose `target` is a resolvable data-reference token. -/
def stepC1 : TestStep :=
  { id := 1, plugin_name := "echo",
    param := { action := "click", target := "$\x7bA.v5\x7d", value := "" } }

/-- The anchored token grammar of §4.2 at the string level: the
reference is literally `${d.i}` with a nonempty dot-free dataset name
and a nonempty brace-free item name. -/
def IsRefToken (ref d i : String) : Prop :=
  ref = "$\x7b" ++ d ++ "." ++ i ++ "\x7d" ∧
  d.data ≠ [] ∧ '.' ∉ d.data ∧ i.data ≠ [] ∧ '\x7d' ∉ i.data

theorem matchAt_ref_some {ref : String} {d i : List Char}
    (h : matchAt ref.data = some (d, i, [])) :
    IsRefToken ref (String.mk d) (String.mk i) := by
  obtain ⟨hdec, h2, h3, h4, h5⟩ := matchAt_eq_some h
  refine ⟨?_, h2, h3, h4, h5⟩
  apply String.ext
  rw [tokString_data]
  rw [List.append_nil] at hdec
  exact hdec

theorem matchAt_ref_complete {ref d i : String} (h : IsRefToken ref d i) :
    matchAt ref.data = some (d.data, i.data, []) := by
  obtain ⟨href, h2, h3, h4, h5⟩ := h
  rw [href]
  rw [tokString_data]
  have := matchAt_complete (d := d.data) (i := i.data) [] h2 h3 h4 h5
  simpa using this

/-! ### More fixtures for the claim theorems -/

/-- A step dispatched to an unregistered plugin name. -/
def stepMissing : TestStep :=
  { id := 9, plugin_name := "nope", param := { action := "click" } }

/-- A step requesting an action outside the plugin's vocabulary. -/
def stepUnsupported : TestStep :=
  { id := 9, plugin_name := "echo", param := { action := "drag" } }

/-- A step whose plugin executor throws. -/
def stepThrowing : TestStep :=
  { id := 9, plugin_name := "throw", param := { action := "kaboom" } }

def stepOk : TestStep :=
  { id := 1, plugin_name := "echo", param := { action := "click", target := "t1" } }

/-- A failing step marked optional, not stopping the case. -/
def stepOptFail : TestStep :=
  { id := 2, plugin_name := "fail", param := { action := "boom" },
    is_optional := true, stop_on_failure := false }

/-- A failing non-optional step that does not stop the case. -/
def stepFail : TestStep :=
  { id := 2, plugin_name := "fail", param := { action := "boom" },
    stop_on_failure := false }

/-- A failing non-optional step with `stop_on_failure` set. -/
def stepFailStop : TestStep :=
  { id := 2, plugin_name := "fail", param := { action := "boom" } }

def stepOk3 : TestStep :=
  { id := 3, plugin_name := "echo", param := { action := "input", target := "t3" } }

def caseW2 : TestCase := { id := 10, name := "w2", steps := [stepOk, stepOptFail, stepOk3] }

def caseW2b : TestCase := { id := 11, name := "w2b", steps := [stepOk, stepFail, stepOk3] }

def caseW3 : TestCase := { id := 12, name := "w3", steps := [stepOk, stepFailStop, stepOk3] }

/-- A module constructing a second plugin named `echo`. -/
def dupModule : ModuleSpec := { plugin := { name := "echo", exec := fun _ => .ok {} } }

def goodPlugin : PluginModel := { name := "good", exec := fun _ => .ok {} }

/-- A plugin whose `uninitialize` hook throws. -/
def badPlugin : PluginModel :=
  { name := "bad", uninitEx := some "boom", exec := fun _ => .ok {} }

def registryC5 : PluginManagerState :=
  { plugins_ := [("bad", badPlugin), ("good", goodPlugin)] }

/-! ### Claim theorems -/

/-- C1 (code bug): the spec requires data-reference tokens in `target`
and `value` to be resolved before dispatch, but `executeTestStep` never
consults the stored `testDataManager_`: the dispatched parameters are
independent of the data store, and a resolvable token such as
`${A.v5}` reaches the plugin verbatim even though the resolver maps it
to `"5"`. -/
theorem executeTestStep_no_resolution :
    (∀ (eng : TestEngine) (m2 : TestDataManager) (step : TestStep),
      executeTestStep { plugin_manager_ := eng.plugin_manager_, testDataManager_ := m2 } step =
        executeTestStep eng step) ∧
    (executeTestStep engineT stepC1).result.extra_data = "$\x7bA.v5\x7d" ∧
    substituteDataReferences engineT.testDataManager_ "$\x7bA.v5\x7d" = "5" :=
  ⟨fun _ _ _ => rfl, rfl, rfl⟩

/-- C2: for every completed case run, `overall_success` is false iff
some recorded step result failed and the step at the same position is
not optional; failing optional steps never flip it. -/
theorem executeTestCase_overall_success_iff (eng : TestEngine) (tc : TestCase) :
    (executeTestCase eng tc).overall_success = false ↔
      ∃ j, ∃ h1 : j < (executeTestCase eng tc).step_results.length,
        ∃ h2 : j < tc.steps.length,
          ((executeTestCase eng tc).step_results.get ⟨j, h1⟩).result.success = false ∧
          (tc.steps.get ⟨j, h2⟩).is_optional = false := by
  rw [executeTestCase_eq eng tc]
  exact overallOf_eq_false_iff (runSteps eng tc.steps) tc.steps

/-- C2 witness: an optional failing step leaves the case successful; a
non-optional failing step makes it fail (via the claim theorem). -/
theorem executeTestCase_overall_success_iff_witness :
    (executeTestCase engineT caseW2).overall_success = true ∧
    (executeTestCase engineT caseW2b).overall_success = false := by
  refine ⟨by decide, ?_⟩
  exact (executeTestCase_overall_success_iff engineT caseW2b).mpr
    ⟨1, by decide, by decide, by decide, by decide⟩

/-- C3: if the steps before position j never trigger the stop policy
and the j-th step's result fails with `stop_on_failure` set, the run
records exactly j+1 step results (no later step executes), and when
that step is also non-optional the case's `overall_success` is false. -/
theorem executeTestCase_stop_on_failure (eng : TestEngine) (tc : TestCase)
    (j : Nat) (hj : j < tc.steps.length)
    (hprev : ∀ k (hk : k < j),
      ¬((executeTestStep eng (tc.steps.get ⟨k, hk.trans hj⟩)).result.success = false ∧
        (tc.steps.get ⟨k, hk.trans hj⟩).stop_on_failure = true))
    (hfail : (executeTestStep eng (tc.steps.get ⟨j, hj⟩)).result.success = false)
    (hstop : (tc.steps.get ⟨j, hj⟩).stop_on_failure = true) :
    (executeTestCase eng tc).step_results.length = j + 1 ∧
    ((tc.steps.get ⟨j, hj⟩).is_optional = false →
      (executeTestCase eng tc).overall_success = false) := by
  obtain ⟨hlen, hget⟩ := runSteps_stop eng tc.steps j hj hprev hfail hstop
  rw [executeTestCase_eq eng tc]
  refine ⟨hlen, fun hopt => ?_⟩
  apply (overallOf_eq_false_iff _ _).mpr
  have hjlen : j < (runSteps eng tc.steps).length := by omega
  have hval : (runSteps eng tc.steps).get ⟨j, hjlen⟩ =
      executeTestStep eng (tc.steps.get ⟨j, hj⟩) := by
    have h2 := List.get?_eq_get (l := runSteps eng tc.steps) (n := j) hjlen
    rw [h2] at hget
    exact Option.some.inj hget
  exact ⟨j, hjlen, hj, by rw [hval]; exact hfail, hopt⟩

/-- C3 witness: a 3-step case whose second step fails with
`stop_on_failure`: exactly 2 step results and overall failure. -/
theorem executeTestCase_stop_on_failure_witness :
    (executeTestCase engineT caseW3).step_results.length = 2 ∧
    (executeTestCase engineT caseW3).overall_success = false := by
  have hj3 : (1 : Nat) < caseW3.steps.length := by decide
  have h := executeTestCase_stop_on_failure engineT caseW3 1 hj3
    (by
      intro k hk hcon
      have hk0 : k = 0 := by omega
      subst hk0
      have hs : (executeTestStep engineT (caseW3.steps.get ⟨0, hk.trans hj3⟩)).result.success =
          true := rfl
      exact Bool.noConfusion (hs.symm.trans hcon.1))
    rfl rfl
  exact ⟨h.1, h.2 rfl⟩

/-- C4 (amended): `substituteDataReferences` replaces each token found
by the left-to-right scan of the original input whose dataset and item
both resolve — a lone well-formed token becomes exactly the raw stored
value — and returns the input unchanged when no scanned token resolves;
the scan itself advances past inserted replacement text (so a token
inside a stored value is not rescanned, witness `${A.x} ↦ ${A.y}`),
but the inner replacement rewrites every occurrence of the matched
token text in the partially substituted result, so a copy inserted by
an earlier replacement is substituted when the same token is scanned
later (`${A.x}${A.y} ↦ 22`). -/
theorem substituteDataReferences_scan_semantics :
    (∀ (m : TestDataManager) (d i : List Char) (v : String),
      d ≠ [] → '.' ∉ d → i ≠ [] → '\x7d' ∉ i → lookupValue m d i = some v →
      substituteDataReferences m ⟨tokChars d i⟩ = v) ∧
    (∀ (m : TestDataManager) (s : String),
      (∀ p ∈ scanTokens s.data, lookupValue m p.1 p.2 = none) →
      substituteDataReferences m s = s) ∧
    substituteDataReferences storeA "$\x7bA.x\x7d" = "$\x7bA.y\x7d" ∧
    substituteDataReferences storeA "$\x7bA.x\x7d$\x7bA.y\x7d" = "22" := by
  refine ⟨?_, ?_, rfl, rfl⟩
  · intro m d i v hd hd2 hi hi2 hv
    exact subst_token m d i v hd hd2 hi hi2 hv
  · intro m s h
    exact substituteDataReferences_id m s h

/-- C4 witness: a resolvable token is replaced by the raw stored value,
and a token-free string is returned unchanged. -/
theorem substituteDataReferences_scan_semantics_witness :
    substituteDataReferences storeA "$\x7bA.v5\x7d" = "5" ∧
    substituteDataReferences storeA "no tokens here" = "no tokens here" := by
  constructor
  · exact substituteDataReferences_scan_semantics.1 storeA "A".data "v5".data "5"
      (by decide) (by decide) (by decide) (by decide) rfl
  · exact substituteDataReferences_scan_semantics.2.1 storeA "no tokens here" (by decide)

/-- C4 counterexample: the store maps `A.x` to the literal text
`${A.y}` and `A.y` to `2`.  In `${A.x}${A.y}` the text inserted for
`${A.x}` is substituted again when `${A.y}` is scanned (output `22`,
not `${A.y}2`), refuting "inserted sequences are not substituted"; and
in `${a} ${A.y}` the resolvable occurrence `${A.y}` is left verbatim
because the greedy leftmost match swallows it, refuting "replaces every
occurrence whose dataset and item both resolve". -/
theorem substituteDataReferences_reinserted_counterexample :
    itemX.value = "$\x7bA.y\x7d" ∧
    substituteDataReferences storeA "$\x7bA.x\x7d$\x7bA.y\x7d" = "22" ∧
    resolveDataReference storeA "$\x7bA.y\x7d" = .ok "2" ∧
    substituteDataReferences storeA "$\x7ba\x7d $\x7bA.y\x7d" = "$\x7ba\x7d $\x7bA.y\x7d" :=
  ⟨rfl, rfl, rfl, rfl⟩

/-- The teardown loop over benign plugins: every hook runs, every
module is released, nothing escapes. -/
theorem unloadAllPluginsAux_benign :
    ∀ l : List (String × PluginModel),
      (∀ pr ∈ l, pr.2.uninitEx = none) →
      unloadAllPluginsAux l = (l.map Prod.fst, l.map Prod.fst, none) := by
  intro l
  induction l with
  | nil => intro _; rfl
  | cons hd tl ih =>
    intro h
    obtain ⟨n, p⟩ := hd
    have hp : p.uninitEx = none := h (n, p) (by simp)
    simp only [unloadAllPluginsAux, hp]
    rw [ih fun pr hpr => h pr (by simp [hpr])]
    simp

/-- The teardown loop stops at the first throwing hook: later plugins
are untouched and the thrower's module is not released. -/
theorem unloadAllPluginsAux_raise :
    ∀ (pre : List (String × PluginModel)) (n : String) (p : PluginModel)
      (rest : List (String × PluginModel)) (e : String),
      (∀ pr ∈ pre, pr.2.uninitEx = none) → p.uninitEx = some e →
      unloadAllPluginsAux (pre ++ (n, p) :: rest) =
        (pre.map Prod.fst ++ [n], pre.map Prod.fst, some e) := by
  intro pre
  induction pre with
  | nil =>
    intro n p rest e _ hp
    simp [unloadAllPluginsAux, hp]
  | cons hd tl ih =>
    intro n p rest e h hp
    obtain ⟨n0, p0⟩ := hd
    have hp0 : p0.uninitEx = none := h (n0, p0) (by simp)
    simp only [List.cons_append, unloadAllPluginsAux, hp0, List.append_eq]
    rw [ih n p rest e (fun pr hpr => h pr (by simp [hpr])) hp]
    simp

/-- C5 (amended): when no `uninitialize` hook throws, `unloadAllPlugins`
uninitializes, destroys and releases every registered plugin once, in
registry order, and clears the registry; but when some hook throws, the
exception escapes the loop: the plugins before the thrower are released,
the thrower's own module and every later plugin are not, and the
registry is left unchanged. -/
theorem unloadAllPlugins_teardown :
    (∀ st : PluginManagerState,
      (∀ pr ∈ st.plugins_, pr.2.uninitEx = none) →
      (unloadAllPlugins st).uninitCalled = st.plugins_.map Prod.fst ∧
      (unloadAllPlugins st).released = st.plugins_.map Prod.fst ∧
      (unloadAllPlugins st).raised = none ∧
      (unloadAllPlugins st).finalPlugins = []) ∧
    (∀ (pre : List (String × PluginModel)) (n : String) (p : PluginModel)
        (rest : List (String × PluginModel)) (e : String),
      (∀ pr ∈ pre, pr.2.uninitEx = none) → p.uninitEx = some e →
      (unloadAllPlugins ⟨pre ++ (n, p) :: rest⟩).uninitCalled = pre.map Prod.fst ++ [n] ∧
      (unloadAllPlugins ⟨pre ++ (n, p) :: rest⟩).released = pre.map Prod.fst ∧
      (unloadAllPlugins ⟨pre ++ (n, p) :: rest⟩).raised = some e ∧
      (unloadAllPlugins ⟨pre ++ (n, p) :: rest⟩).finalPlugins = pre ++ (n, p) :: rest) := by
  constructor
  · intro st h
    simp [unloadAllPlugins, unloadAllPluginsAux_benign st.plugins_ h]
  · intro pre n p rest e h hp
    simp [unloadAllPlugins, unloadAllPluginsAux_raise pre n p rest e h hp]

/-- C5 witness: the three-plugin registry (no throwing hooks) is fully
released; a registry whose first hook throws reports the escape. -/
theorem unloadAllPlugins_teardown_witness :
    (unloadAllPlugins registryT).released = ["echo", "fail", "throw"] ∧
    (unloadAllPlugins registryC5).raised = some "boom" := by
  constructor
  · have h := unloadAllPlugins_teardown.1 registryT (by
      intro pr hpr
      simp [registryT] at hpr
      rcases hpr with rfl | rfl | rfl <;> rfl)
    rw [h.2.1]
    rfl
  · have h := unloadAllPlugins_teardown.2 [] "bad" badPlugin [("good", goodPlugin)] "boom"
      (by intro pr hpr; simp at hpr) rfl
    exact h.2.2.1

/-- C5 counterexample: with plugins `bad` (throwing hook) then `good`,
the loop raises after calling only `bad`'s hook: no module is released,
`good` is never uninitialized, and both registry entries survive —
refuting "every plugin is uninitialized and released even when a hook
raises". -/
theorem unloadAllPlugins_raise_counterexample :
    (unloadAllPlugins registryC5).raised = some "boom" ∧
    (unloadAllPlugins registryC5).uninitCalled = ["bad"] ∧
    (unloadAllPlugins registryC5).released = [] ∧
    "good" ∉ (unloadAllPlugins registryC5).uninitCalled ∧
    (unloadAllPlugins registryC5).finalPlugins.length = 2 :=
  ⟨rfl, rfl, rfl, by decide, rfl⟩

/-- C6: the three dispatch-error conditions each yield a failed
`StepResult` with its own reserved error code and never escape the
dispatch: a missing plugin gives code -1 and the "Plugin not found"
message; an action outside the plugin's declared vocabulary gives code
-2 without consulting the plugin's executor (the result is a constant,
whatever `exec` is); a `std::exception` from the executor is caught and
converted to code -3 (and any other thrown object to code -4). -/
theorem executeTestStep_dispatch_errors (eng : TestEngine) (step : TestStep) :
    (getPlugin eng.plugin_manager_ step.plugin_name = none →
      (executeTestStep eng step).result =
        { success := false, error_code := -1,
          message := "Plugin not found: " ++ step.plugin_name }) ∧
    (∀ plugin, getPlugin eng.plugin_manager_ step.plugin_name = some plugin →
      step.param.action ∉ plugin.actions →
      (executeTestStep eng step).result =
        { success := false, error_code := -2,
          message := "Plugin " ++ step.plugin_name ++ " does not support action: " ++
            step.param.action }) ∧
    (∀ plugin what, getPlugin eng.plugin_manager_ step.plugin_name = some plugin →
      step.param.action ∈ plugin.actions →
      plugin.exec step.param = .error (.stdExc what) →
      (executeTestStep eng step).result =
        { success := false, error_code := -3,
          message := "Exception occurred: " ++ what }) ∧
    (∀ plugin, getPlugin eng.plugin_manager_ step.plugin_name = some plugin →
      step.param.action ∈ plugin.actions →
      plugin.exec step.param = .error .unknownExc →
      (executeTestStep eng step).result =
        { success := false, error_code := -4,
          message := "Unknown exception occurred" }) := by
  refine ⟨?_, ?_, ?_, ?_⟩
  · intro h
    simp [executeTestStep, h]
  · intro plugin hp hna
    simp [executeTestStep, hp, hna]
  · intro plugin what hp ha hex
    simp [executeTestStep, hp, ha, hex]
  · intro plugin hp ha hex
    simp [executeTestStep, hp, ha, hex]

/-- C6 witness: the three conditions at concrete steps produce the
three reserved codes. -/
theorem executeTestStep_dispatch_errors_witness :
    (executeTestStep engineT stepMissing).result.error_code = -1 ∧
    (executeTestStep engineT stepUnsupported).result.error_code = -2 ∧
    (executeTestStep engineT stepThrowing).result.error_code = -3 := by
  refine ⟨?_, ?_, ?_⟩
  · rw [(executeTestStep_dispatch_errors engineT stepMissing).1 rfl]
  · rw [(executeTestStep_dispatch_errors engineT stepUnsupported).2.1 echoPlugin rfl
      (by decide)]
  · rw [(executeTestStep_dispatch_errors engineT stepThrowing).2.2.1 throwPlugin "oops" rfl
      (by decide) rfl]

/-- C7: loading a module whose constructed plugin bears an
already-registered name is rejected with no observable change: the
registry state (and so its size and the lookup of that name) is
untouched, the new instance is destroyed, and the module is released. -/
theorem loadPlugin_duplicate_rejected (st : PluginManagerState) (m : ModuleSpec)
    (p0 : PluginModel)
    (hdup : alookup m.plugin.name st.plugins_ = some p0)
    (hfile : m.fileExists = true) (hcf : m.hasCreateFunc = true)
    (hdf : m.hasDestroyFunc = true) (hco : m.createOk = true) :
    (loadPlugin st m).ok = false ∧
    (loadPlugin st m).state = st ∧
    (loadPlugin st m).state.plugins_.length = st.plugins_.length ∧
    getPlugin (loadPlugin st m).state m.plugin.name = some p0 ∧
    (loadPlugin st m).destroyedNewInstance = true ∧
    (loadPlugin st m).freedModule = true := by
  have hload : loadPlugin st m =
      { state := st, ok := false, destroyedNewInstance := true, freedModule := true } := by
    unfold loadPlugin
    have hsome : (alookup m.plugin.name st.plugins_).isSome = true := by
      rw [hdup]; rfl
    cases hv : validatePlugin m.plugin with
    | false => simp [hfile, hcf, hdf, hco, hv]
    | true => simp [hfile, hcf, hdf, hco, hv, hsome]
  rw [hload]
  exact ⟨rfl, rfl, rfl, by simpa [getPlugin] using hdup, rfl, rfl⟩

/-- C7 witness: re-registering the name `echo` against the concrete
registry fails with rollback. -/
theorem loadPlugin_duplicate_rejected_witness :
    (loadPlugin registryT dupModule).ok = false ∧
    (loadPlugin registryT dupModule).state.plugins_.length = registryT.plugins_.length ∧
    (loadPlugin registryT dupModule).destroyedNewInstance = true ∧
    (loadPlugin registryT dupModule).freedModule = true := by
  have h := loadPlugin_duplicate_rejected registryT dupModule echoPlugin rfl rfl rfl rfl rfl
  exact ⟨h.1, h.2.2.1, h.2.2.2.2.1, h.2.2.2.2.2⟩

/-- C8 (amended): a string all of whose scanned tokens name unknown
datasets comes back unchanged, and re-applying `substituteDataReferences`
to that output yields the same string again; unrestricted idempotence
fails when a stored value itself contains token text (see the
counterexample). -/
theorem substituteDataReferences_unknown_dataset (m : TestDataManager) (s : String)
    (h : ∀ p ∈ scanTokens s.data, alookup (String.mk p.1) m.dataSetNameMap_ = none) :
    substituteDataReferences m s = s ∧
    substituteDataReferences m (substituteDataReferences m s) = s := by
  have hid := substituteDataReferences_id m s fun p hp => by
    simp [lookupValue, h p hp]
  exact ⟨hid, by rw [hid, hid]⟩

/-- C8 witness: a token naming the unknown dataset `B` survives one and
two applications unchanged. -/
theorem substituteDataReferences_unknown_dataset_witness :
    substituteDataReferences storeA "$\x7bB.q\x7d test" = "$\x7bB.q\x7d test" ∧
    substituteDataReferences storeA
      (substituteDataReferences storeA "$\x7bB.q\x7d test") = "$\x7bB.q\x7d test" :=
  substituteDataReferences_unknown_dataset storeA _ (by decide)

/-- C8 counterexample: `A.x` stores the text `${A.y}`, so one
application of `substituteDataReferences` to `${A.x}` yields `${A.y}`
while a second application yields `2` — substitution is not idempotent
on every input. -/
theorem substituteDataReferences_idempotence_counterexample :
    substituteDataReferences storeA "$\x7bA.x\x7d" = "$\x7bA.y\x7d" ∧
    substituteDataReferences storeA (substituteDataReferences storeA "$\x7bA.x\x7d") = "2" ∧
    substituteDataReferences storeA (substituteDataReferences storeA "$\x7bA.x\x7d") ≠
      substituteDataReferences storeA "$\x7bA.x\x7d" :=
  ⟨rfl, rfl, by decide⟩

/-- C9: `resolveDataReference` succeeds only on an exact anchored
`${dataset.item}` reference, returning the item's raw stored value, and
otherwise fails with one of three mutually distinct error kinds: syntax
mismatch (`invalidFormat`), unknown dataset name (`datasetNotFound`),
and a failure to fetch the item of a known dataset (`resolveFailed`,
the wrapped rethrow). -/
theorem resolveDataReference_classification (m : TestDataManager) (ref : String) :
    (∀ d i : String, IsRefToken ref d i →
      ((alookup d m.dataSetNameMap_ = none →
          ∃ msg, resolveDataReference m ref = .error (.datasetNotFound msg)) ∧
       (∀ dsId, alookup d m.dataSetNameMap_ = some dsId →
          (((alookup dsId m.dataSets_).bind fun ds => getDataItemByName ds.items i) = none →
            ∃ msg, resolveDataReference m ref = .error (.resolveFailed msg)) ∧
          (∀ item,
            ((alookup dsId m.dataSets_).bind fun ds => getDataItemByName ds.items i) =
              some item →
            resolveDataReference m ref = .ok item.value)))) ∧
    ((∀ d i : String, ¬ IsRefToken ref d i) →
      ∃ msg, resolveDataReference m ref = .error (.invalidFormat msg)) ∧
    (∀ v, resolveDataReference m ref = .ok v →
      ∃ d i : String, IsRefToken ref d i ∧
        ∃ dsId ds item, alookup d m.dataSetNameMap_ = some dsId ∧
          alookup dsId m.dataSets_ = some ds ∧
          getDataItemByName ds.items i = some item ∧ item.value = v) := by
  refine ⟨?_, ?_, ?_⟩
  · -- token case: behavior is decided by the two-level lookup
    intro d i htok
    have hm : matchAt ref.data = some (d.data, i.data, []) := matchAt_ref_complete htok
    constructor
    · intro hds
      have hds' : alookup (String.mk d.data) m.dataSetNameMap_ = none := hds
      simp only [resolveDataReference, hm, hds']
      exact ⟨_, rfl⟩
    · intro dsId hds
      have hds' : alookup (String.mk d.data) m.dataSetNameMap_ = some dsId := hds
      constructor
      · intro hbind
        cases hds2 : alookup dsId m.dataSets_ with
        | none =>
          simp only [resolveDataReference, hm, hds', hds2]
          exact ⟨_, rfl⟩
        | some ds =>
          rw [hds2] at hbind
          simp only [Option.some_bind] at hbind
          have hbind' : getDataItemByName ds.items (String.mk i.data) = none := hbind
          simp only [resolveDataReference, hm, hds', hds2, hbind']
          exact ⟨_, rfl⟩
      · intro item hbind
        cases hds2 : alookup dsId m.dataSets_ with
        | none => rw [hds2] at hbind; simp at hbind
        | some ds =>
          rw [hds2] at hbind
          simp only [Option.some_bind] at hbind
          have hbind' : getDataItemByName ds.items (String.mk i.data) = some item := hbind
          simp only [resolveDataReference, hm, hds', hds2, hbind']
  · -- syntax mismatch
    intro hno
    cases hm : matchAt ref.data with
    | none =>
      simp only [resolveDataReference, hm]
      exact ⟨_, rfl⟩
    | some v =>
      obtain ⟨d, i, suf⟩ := v
      cases suf with
      | nil => exact absurd (matchAt_ref_some hm) (hno _ _)
      | cons c cs =>
        simp only [resolveDataReference, hm]
        exact ⟨_, rfl⟩
  · -- success only through the token grammar and the two lookups
    intro v hok
    cases hm : matchAt ref.data with
    | none => simp [resolveDataReference, hm] at hok
    | some w =>
      obtain ⟨d, i, suf⟩ := w
      cases suf with
      | cons c cs => simp [resolveDataReference, hm] at hok
      | nil =>
        refine ⟨String.mk d, String.mk i, matchAt_ref_some hm, ?_⟩
        simp only [resolveDataReference, hm] at hok
        cases hds : alookup (String.mk d) m.dataSetNameMap_ with
        | none => rw [hds] at hok; simp at hok
        | some dsId =>
          rw [hds] at hok
          simp only [] at hok
          cases hds2 : alookup dsId m.dataSets_ with
          | none => rw [hds2] at hok; simp at hok
          | some ds =>
            rw [hds2] at hok
            simp only [] at hok
            cases hit : getDataItemByName ds.items (String.mk i) with
            | none => rw [hit] at hok; simp at hok
            | some item =>
              rw [hit] at hok
              simp only [] at hok
              refine ⟨dsId, ds, item, ?_, hds2, hit, ?_⟩
              · rfl
              · cases hok
                rfl

/-- C9 witness: the concrete store resolves `${A.v5}` to `"5"` through
the token grammar and the two lookups. -/
theorem resolveDataReference_classification_witness :
    resolveDataReference storeA "$\x7bA.v5\x7d" = .ok "5" := by
  have htok : IsRefToken "$\x7bA.v5\x7d" "A" "v5" :=
    ⟨by decide, by decide, by decide, by decide, by decide⟩
  have h := ((resolveDataReference_classification storeA "$\x7bA.v5\x7d").1 "A" "v5"
    htok).2 1 rfl
  exact h.2 itemV5 rfl

/-- C10: the serialize/deserialize round trip of a test case preserves
`id`, `name`, `description`, `project_id` and, per step in order, the
step's `id`, `plugin_name`, `action`, `target`, `value` and
`stop_on_failure` — while silently resetting each step's `is_optional`,
`params` and `timeout` to the struct defaults and dropping the case's
`setup_script`, `teardown_script` and `data_set_ids` (and timestamps). -/
theorem serializeTestCase_roundTrip (tc : TestCase) :
    deserializeTestCase (serializeTestCase tc) = some
      { id := tc.id, name := tc.name, description := tc.description,
        project_id := tc.project_id, steps := tc.steps.map resetStep,
        setup_script := "", teardown_script := "", created_at := "",
        last_modified := "", data_set_ids := [] } := by
  have h5 : (serializeTestCase tc).getField "steps" =
      some (.arr (tc.steps.map serializeStep)) := rfl
  unfold deserializeTestCase
  simp only [h5, mapM_roundtrip]
  rfl
